import Mathlib

/-!
Verification development for the Glean MCP server (`glean_server.py`).

The server exposes one tool, `chat`: it serializes a list of chat messages
into a JSON request body, issues one HTTP POST to the Glean API, and
normalizes the JSON response into a single string.  We embed the data model
and the operations shallowly: JSON values are an inductive type, the
Python-level dynamic operations (`in`, subscription, iteration, `str.join`)
are modelled as functions into an error monad mirroring the exceptions these
operations can raise, and the request/response pipeline is modelled as pure
functions on those values.
-/

namespace Glean

/-- JSON values, as decoded from the HTTP response body.  Numbers are
modelled as integers (no claim depends on non-integral numbers). -/
inductive Json where
  | null : Json
  | bool : Bool → Json
  | num : Int → Json
  | str : String → Json
  | arr : List Json → Json
  | obj : List (String × Json) → Json

/-- First-match field lookup in a decoded JSON object, i.e. `d[key]` /
`key in d` on a Python dict (decoded JSON objects have unique keys). -/
def lookupField : List (String × Json) → String → Option Json
  | [], _ => none
  | (k, v) :: rest, key => if k = key then some v else lookupField rest key

/-- Python truthiness (`if x:`) of a decoded JSON value: `None`, `False`,
`0`, `""`, `[]` and `{}` are falsy, everything else truthy. -/
def Json.truthy : Json → Bool
  | .null => false
  | .bool b => b
  | .num n => n != 0
  | .str s => !s.isEmpty
  | .arr xs => !xs.isEmpty
  | .obj fields => !fields.isEmpty

/-- The Python type name of a decoded JSON value, used in exception text. -/
def Json.pyTypeName : Json → String
  | .null => "NoneType"
  | .bool _ => "bool"
  | .num _ => "int"
  | .str _ => "str"
  | .arr _ => "list"
  | .obj _ => "dict"

/-- Exceptions the modelled Python operations can raise. -/
inductive PyError where
  | typeError : String → PyError
  | keyError : String → PyError

/-- The `str(e)` rendering of a modelled Python exception. -/
def pyErrMessage : PyError → String
  | .typeError m => m
  | .keyError k => k

/-- Whether the character list `needle` occurs contiguously in `hay`. -/
def listIsInfixOf (needle : List Char) : List Char → Bool
  | [] => needle.isEmpty
  | c :: rest => needle.isPrefixOf (c :: rest) || listIsInfixOf needle rest

/-- Python `key in v` for a string key over a decoded JSON value:
key membership on a dict, substring test on a string, element equality on a
list, and a `TypeError` on non-container values. -/
def pyContains (key : String) : Json → Except PyError Bool
  | .obj fields => .ok (lookupField fields key).isSome
  | .str s => .ok (listIsInfixOf key.data s.data)
  | .arr xs => .ok (xs.any fun j => match j with | .str s => s == key | _ => false)
  | j => .error (.typeError ("argument of type '" ++ j.pyTypeName ++ "' is not iterable"))

/-- Python `v[key]` for a string key: dict lookup (with `KeyError` on a
missing key) and a `TypeError` on every other value. -/
def pyGetItem (key : String) : Json → Except PyError Json
  | .obj fields =>
    match lookupField fields key with
    | some v => .ok v
    | none => .error (.keyError key)
  | .str _ => .error (.typeError "string indices must be integers")
  | .arr _ => .error (.typeError "list indices must be integers or slices, not str")
  | j => .error (.typeError ("'" ++ j.pyTypeName ++ "' object is not subscriptable"))

/-- Python iteration `for x in v`: list elements, dict keys, the characters
of a string, and a `TypeError` on non-iterable values. -/
def pyIter : Json → Except PyError (List Json)
  | .arr xs => .ok xs
  | .obj fields => .ok (fields.map fun p => .str p.1)
  | .str s => .ok (s.data.map fun c => .str ⟨[c]⟩)
  | j => .error (.typeError ("'" ++ j.pyTypeName ++ "' object is not iterable"))

/-- The collected items of a Python list must all be strings before
`str.join` accepts them. -/
def strList : List Json → Except PyError (List String)
  | [] => .ok []
  | .str s :: rest => (strList rest).map (s :: ·)
  | j :: _ =>
    .error (.typeError ("sequence item: expected str instance, " ++ j.pyTypeName ++ " found"))

/-- Python `sep.join(items)`. -/
def pyJoin (sep : String) (items : List Json) : Except PyError String :=
  match strList items with
  | .ok l => .ok (String.intercalate sep l)
  | .error e => .error e

/-- The inner fragment loop of `parse_response`: for each fragment, if
`'text' in fragment` then collect `fragment['text']` (whatever value it
holds), in order. -/
def fragments_texts : List Json → Except PyError (List Json)
  | [] => .ok []
  | fragment :: rest =>
    match pyContains "text" fragment with
    | .error e => .error e
    | .ok true =>
      match pyGetItem "text" fragment with
      | .error e => .error e
      | .ok t => (fragments_texts rest).map (t :: ·)
    | .ok false => fragments_texts rest

/-- `parse_response(json_data)` from the source: for each message with a
`fragments` field, iterate the fragments and collect every `text` value, in
order, concatenating the per-message results.  (The source's
`except json.JSONDecodeError` clause can never fire and is omitted; every
other exception propagates.) -/
def parse_response : List Json → Except PyError (List Json)
  | [] => .ok []
  | message :: rest =>
    match pyContains "fragments" message with
    | .error e => .error e
    | .ok true =>
      match pyGetItem "fragments" message with
      | .error e => .error e
      | .ok fv =>
        match pyIter fv with
        | .error e => .error e
        | .ok frs =>
          match fragments_texts frs with
          | .error e => .error e
          | .ok ts => (parse_response rest).map (ts ++ ·)
    | .ok false => parse_response rest

/-- The two caller-visible error codes (`mcp.types`). -/
inductive ErrorCode where
  | internalError : ErrorCode
  | invalidParams : ErrorCode
deriving DecidableEq

/-- A structured MCP error: code plus a human-readable message. -/
structure McpErr where
  code : ErrorCode
  message : String
deriving DecidableEq

/-- The filter predicate of the `assistant_messages` comprehension:
`isinstance(msg, dict) and msg.get("author") == "GLEAN_AI"`. -/
def isAssistant : Json → Bool
  | .obj fields =>
    match lookupField fields "author" with
    | some (.str a) => a == "GLEAN_AI"
    | _ => false
  | _ => false

/-- The separator used to join collected fragment texts. -/
def textSeparator : String := "\n---\n"

/-- Error raised when the decoded body is falsy (`if not response:`). -/
def emptyResponseErr : McpErr :=
  ⟨.internalError, "Empty response received from Glean Chat API"⟩

/-- Error raised when neither extraction path succeeds. -/
def couldNotExtractErr : McpErr :=
  ⟨.internalError, "Could not extract assistant response from Glean Chat API"⟩

/-- The alternative-format fallback at the end of `chat`: return
`response["content"]` when it is a string, otherwise raise the
could-not-extract error. -/
def chatFallback (response : Json) : Except PyError (Except McpErr String) :=
  match pyContains "content" response with
  | .error e => .error e
  | .ok true =>
    match pyGetItem "content" response with
    | .error e => .error e
    | .ok (Json.str s) => .ok (.ok s)
    | .ok _ => .ok (.error couldNotExtractErr)
  | .ok false => .ok (.error couldNotExtractErr)

/-- The primary extraction branch of `chat`: if `"messages" in response`
and it is a list, filter the assistant messages; when any exist, return the
join of `parse_response(assistant_messages)`.  The source also binds
`last_message = assistant_messages[-1]` here, which is logged but never
used; the binding is reproduced below and is dead. -/
def chatMessagesBranch (response : Json) : Except PyError (Except McpErr String) :=
  match pyContains "messages" response with
  | .error e => .error e
  | .ok false => chatFallback response
  | .ok true =>
    match pyGetItem "messages" response with
    | .error e => .error e
    | .ok (Json.arr items) =>
      match items.filter isAssistant with
      | [] => chatFallback response
      | m :: rest =>
        let _last_message := (m :: rest).getLast?
        match parse_response (m :: rest) with
        | .error e => .error e
        | .ok texts =>
          match pyJoin textSeparator texts with
          | .error e => .error e
          | .ok s => .ok (.ok s)
    | .ok _ => chatFallback response

/-- The response-extraction part of `chat`, starting at the
`if not response:` check.  The outer value is the Python-exception layer
(`except Exception`), the inner value is the returned string or the
explicitly raised `McpError`. -/
def chatExtractCore (response : Json) : Except PyError (Except McpErr String) :=
  if response.truthy then chatMessagesBranch response
  else .ok (.error emptyResponseErr)

/-- Extraction result as seen by the caller: an explicitly raised `McpError`
is re-raised unchanged (`except McpError: raise`) and any other exception is
wrapped by the generic handler. -/
def chatResult (response : Json) : Except McpErr String :=
  match chatExtractCore response with
  | .ok r => r
  | .error e => .error ⟨.internalError, "Error processing chat request: " ++ pyErrMessage e⟩

/-- A text fragment in a message (`Fragment`). -/
structure Fragment where
  text : String
deriving DecidableEq

/-- A chat message in the conversation (`ChatMessage`). -/
structure ChatMessage where
  author : String := "USER"
  fragments : List Fragment
  messageType : String := "CONTENT"
deriving DecidableEq

/-- `fragment.dict()`: pydantic serialization of a fragment. -/
def Fragment.toJson (f : Fragment) : Json := .obj [("text", .str f.text)]

/-- `message.dict()`: pydantic serialization of a message, fields in
declaration order. -/
def ChatMessage.toJson (m : ChatMessage) : Json :=
  .obj [("author", .str m.author),
        ("fragments", .arr (m.fragments.map Fragment.toJson)),
        ("messageType", .str m.messageType)]

/-- The `request_data` dictionary built inside `chat`. -/
def request_data (messages : List ChatMessage) : Json :=
  .obj [("messages", .arr (messages.map ChatMessage.toJson)),
        ("saveChat", .bool true),
        ("stream", .bool false)]

/-- The possible outcomes of the single HTTP request, as seen by
`make_glean_request`: a response with a status code (plus the
`str(HTTPStatusError)` text httpx would render for it and the decoded
body), a timeout, or a connection-level request error with its
description. -/
inductive HttpOutcome where
  | response : Nat → String → Json → HttpOutcome
  | timeoutException : HttpOutcome
  | requestError : String → HttpOutcome

/-- The exceptions the `try` block of `make_glean_request` can raise:
`GleanAPIError` (message and status), `httpx.HTTPStatusError` from
`raise_for_status` (carrying its rendered text), `httpx.TimeoutException`,
and `httpx.RequestError` (carrying its description). -/
inductive RequestFailure where
  | gleanAPIError : String → Nat → RequestFailure
  | httpStatusError : String → RequestFailure
  | timeoutException : RequestFailure
  | requestError : String → RequestFailure

/-- The body of the `try` block: the explicit checks for 401/403/429 raise
`GleanAPIError`, then `raise_for_status` raises on any non-2xx status, and
a 2xx response yields the decoded body. -/
def tryRequest : HttpOutcome → Except RequestFailure Json
  | .timeoutException => .error .timeoutException
  | .requestError d => .error (.requestError d)
  | .response status text body =>
    if status = 401 then .error (.gleanAPIError "Invalid Glean API key" 401)
    else if status = 403 then
      .error (.gleanAPIError "Access forbidden - check API key permissions" 403)
    else if status = 429 then .error (.gleanAPIError "Rate limit exceeded" 429)
    else if 200 ≤ status ∧ status ≤ 299 then .ok body
    else .error (.httpStatusError text)

/-- The `except` clauses of `make_glean_request`, mapping each caught
exception to the raised `McpError`. -/
def failureToMcp : RequestFailure → McpErr
  | .timeoutException => ⟨.internalError, "Request to Glean API timed out"⟩
  | .requestError d => ⟨.internalError, "Failed to connect to Glean API: " ++ d⟩
  | .gleanAPIError m _ => ⟨.internalError, m⟩
  | .httpStatusError t => ⟨.internalError, "Glean API error: " ++ t⟩

/-- The request phase of `make_glean_request` after the key check. -/
def requestOutcome (outcome : HttpOutcome) : Except McpErr Json :=
  match tryRequest outcome with
  | .ok j => .ok j
  | .error e => .error (failureToMcp e)

/-- `if not GLEAN_API_KEY:` — the key is falsy when the environment
variable is unset or empty. -/
def keyFalsy : Option String → Bool
  | none => true
  | some s => s.isEmpty

/-- `make_glean_request`, also reporting whether the HTTP request was
issued: with a falsy key it raises before any network activity. -/
def make_glean_request (apiKey : Option String) (outcome : HttpOutcome) :
    Except McpErr Json × Bool :=
  if keyFalsy apiKey then
    (.error ⟨.internalError, "GLEAN_API_KEY environment variable is not set"⟩, false)
  else (requestOutcome outcome, true)

/-- The whole `chat` tool: build the request body, issue the request (the
network's behaviour is a function of the request body), and extract the
response.  Validation of `ChatRequest` cannot fail on well-typed input.
The second component records whether an HTTP request was issued. -/
def chat (apiKey : Option String) (messages : List ChatMessage)
    (responder : Json → HttpOutcome) : Except McpErr String × Bool :=
  match make_glean_request apiKey (responder (request_data messages)) with
  | (.error e, called) => (.error e, called)
  | (.ok body, called) => (chatResult body, called)

/-! ### Specification-side definitions

These formalize the wording of the specification and of the claims, to be
compared with the source-side functions above. -/

/-- The text of a fragment, per the claims' wording: a fragment contributes
its `text` value when it has a string-valued `text` field. -/
def fragText : Json → Option String
  | .obj gs =>
    match lookupField gs "text" with
    | some (.str t) => some t
    | _ => none
  | _ => none

/-- The texts contributed by one message, per the claims' wording: the
`text` of every fragment that has one, in fragment order. -/
def messageTexts : Json → List String
  | .obj gs =>
    match lookupField gs "fragments" with
    | some (.arr frs) => frs.filterMap fragText
    | _ => []
  | _ => []

/-- All fragment texts of a message list, in message and fragment order. -/
def assistantTexts (msgs : List Json) : List String := msgs.flatMap messageTexts

/-- A well-shaped fragment as the claims presuppose one: an object whose
`text` field, when present, holds a string. -/
def fragmentWF : Json → Bool
  | .obj gs =>
    match lookupField gs "text" with
    | none => true
    | some (.str _) => true
    | some _ => false
  | _ => false

/-- A well-shaped message as the claims presuppose one: an object whose
`fragments` field, when present, is a list of well-shaped fragments. -/
def messageWF : Json → Bool
  | .obj gs =>
    match lookupField gs "fragments" with
    | none => true
    | some (.arr frs) => frs.all fragmentWF
    | some _ => false
  | _ => false

/-- A fragment (as an object) with no `text` field at all. -/
def fragmentNoText : Json → Bool
  | .obj gs => (lookupField gs "text").isNone
  | _ => false

/-- A message none of whose fragments has a `text` field. -/
def messageNoText : Json → Bool
  | .obj gs =>
    match lookupField gs "fragments" with
    | none => true
    | some (.arr frs) => frs.all fragmentNoText
    | some _ => false
  | _ => false

/-- Extraction as a function of the filtered assistant-message list alone,
per the claim's wording: process the whole filtered list with
`parse_response` and join, with no reference to the selected last
message. -/
def extractFromAssistant (assistant : List Json) : Except McpErr String :=
  match parse_response assistant with
  | .error e => .error ⟨.internalError, "Error processing chat request: " ++ pyErrMessage e⟩
  | .ok texts =>
    match pyJoin textSeparator texts with
    | .error e => .error ⟨.internalError, "Error processing chat request: " ++ pyErrMessage e⟩
    | .ok s => .ok s

/-- Per the claim's wording: no assistant-authored message is found in the
body (the `messages` field is absent, not a list, or filters to nothing). -/
def noAssistantFound (fs : List (String × Json)) : Bool :=
  match lookupField fs "messages" with
  | none => true
  | some (Json.arr items) => (items.filter isAssistant).isEmpty
  | some _ => true

/-- The status-code-to-result mapping as the claim states it: 401, 403 and
429 map to their dedicated internal errors, 2xx succeeds, and every other
status maps to the generic HTTP-status internal error. -/
def gleanStatusSpec (status : Nat) (statusText : String) (body : Json) : Except McpErr Json :=
  if status = 401 then .error ⟨.internalError, "Invalid Glean API key"⟩
  else if status = 403 then .error ⟨.internalError, "Access forbidden - check API key permissions"⟩
  else if status = 429 then .error ⟨.internalError, "Rate limit exceeded"⟩
  else if 200 ≤ status ∧ status ≤ 299 then .ok body
  else .error ⟨.internalError, "Glean API error: " ++ statusText⟩

/-- Decoder for the exact wire shape of a serialized fragment. -/
def decodeFragment : Json → Option Fragment
  | .obj [("text", .str t)] => some ⟨t⟩
  | _ => none

/-- Decode every element of a list, failing when any element fails. -/
def decodeList (f : Json → Option α) : List Json → Option (List α)
  | [] => some []
  | j :: rest =>
    match f j, decodeList f rest with
    | some a, some l => some (a :: l)
    | _, _ => none

/-- Decoder for the exact wire shape of a serialized message: exactly the
fields `author`, `fragments`, `messageType`, in order. -/
def decodeMessage : Json → Option ChatMessage
  | .obj [("author", .str a), ("fragments", .arr frs), ("messageType", .str mt)] =>
    (decodeList decodeFragment frs).map fun fl => ⟨a, fl, mt⟩
  | _ => none

/-- Decoder for the exact wire shape of a serialized chat request. -/
def decodeRequest : Json → Option (List ChatMessage × Bool × Bool)
  | .obj [("messages", .arr ms), ("saveChat", .bool sc), ("stream", .bool st)] =>
    (decodeList decodeMessage ms).map fun ml => (ml, sc, st)
  | _ => none

/-! ### Helper lemmas -/

lemma truthy_of_lookupField {fs : List (String × Json)} {k : String} {v : Json}
    (h : lookupField fs k = some v) : (Json.obj fs).truthy = true := by
  cases fs with
  | nil => simp [lookupField] at h
  | cons p rest => rfl

lemma fragments_texts_wf (frs : List Json) (h : frs.all fragmentWF = true) :
    fragments_texts frs = .ok ((frs.filterMap fragText).map Json.str) := by
  induction frs with
  | nil => rfl
  | cons fr rest ih =>
    rw [List.all_cons, Bool.and_eq_true] at h
    obtain ⟨h1, h2⟩ := h
    have ih' := ih h2
    cases fr with
    | obj gs =>
      simp only [fragments_texts, pyContains, pyGetItem]
      cases hl : lookupField gs "text" with
      | none => simp [fragText, hl, ih']
      | some v =>
        cases v with
        | str t => simp [fragText, hl, ih', Except.map]
        | null => simp [fragmentWF, hl] at h1
        | bool b => simp [fragmentWF, hl] at h1
        | num n => simp [fragmentWF, hl] at h1
        | arr xs => simp [fragmentWF, hl] at h1
        | obj o => simp [fragmentWF, hl] at h1
    | null => simp [fragmentWF] at h1
    | bool b => simp [fragmentWF] at h1
    | num n => simp [fragmentWF] at h1
    | str s => simp [fragmentWF] at h1
    | arr xs => simp [fragmentWF] at h1

lemma parse_response_wf (msgs : List Json) (h : msgs.all messageWF = true) :
    parse_response msgs = .ok ((assistantTexts msgs).map Json.str) := by
  induction msgs with
  | nil => rfl
  | cons m rest ih =>
    rw [List.all_cons, Bool.and_eq_true] at h
    obtain ⟨h1, h2⟩ := h
    have ih' := ih h2
    cases m with
    | obj gs =>
      simp only [parse_response, pyContains, pyGetItem]
      cases hl : lookupField gs "fragments" with
      | none => simp [assistantTexts, messageTexts, hl, ih']
      | some v =>
        cases v with
        | arr frs =>
          have hwf : frs.all fragmentWF = true := by
            simpa [messageWF, hl] using h1
          simp [pyIter, fragments_texts_wf frs hwf, ih', Except.map,
            assistantTexts, messageTexts, hl]
        | null => simp [messageWF, hl] at h1
        | bool b => simp [messageWF, hl] at h1
        | num n => simp [messageWF, hl] at h1
        | str s => simp [messageWF, hl] at h1
        | obj o => simp [messageWF, hl] at h1
    | null => simp [messageWF] at h1
    | bool b => simp [messageWF] at h1
    | num n => simp [messageWF] at h1
    | str s => simp [messageWF] at h1
    | arr xs => simp [messageWF] at h1

lemma strList_map (l : List String) : strList (l.map Json.str) = .ok l := by
  induction l with
  | nil => rfl
  | cons s rest ih => simp [strList, ih, Except.map]

lemma pyJoin_map (sep : String) (l : List String) :
    pyJoin sep (l.map Json.str) = .ok (String.intercalate sep l) := by
  simp [pyJoin, strList_map]

lemma chatMessagesBranch_obj (fs : List (String × Json)) (items : List Json)
    (hm : lookupField fs "messages" = some (Json.arr items)) :
    chatMessagesBranch (Json.obj fs) =
      match items.filter isAssistant with
      | [] => chatFallback (Json.obj fs)
      | m :: rest =>
        match parse_response (m :: rest) with
        | .error e => .error e
        | .ok texts =>
          match pyJoin textSeparator texts with
          | .error e => .error e
          | .ok s => .ok (.ok s) := by
  simp only [chatMessagesBranch, pyContains, pyGetItem]
  rw [hm]
  simp

lemma chatResult_messages_eq (fs : List (String × Json)) (items : List Json) (m : Json)
    (rest : List Json) (hm : lookupField fs "messages" = some (Json.arr items))
    (hfil : items.filter isAssistant = m :: rest) :
    chatResult (Json.obj fs) = extractFromAssistant (m :: rest) := by
  have ht := truthy_of_lookupField hm
  unfold chatResult chatExtractCore
  rw [ht]
  simp only [if_true]
  rw [chatMessagesBranch_obj fs items hm, hfil]
  unfold extractFromAssistant
  cases hpr : parse_response (m :: rest) with
  | error e => simp [hpr]
  | ok texts =>
    cases hj : pyJoin textSeparator texts with
    | error e => simp [hpr, hj]
    | ok s => simp [hpr, hj]

lemma fragmentNoText_imp {j : Json} (h : fragmentNoText j = true) :
    fragmentWF j = true ∧ fragText j = none := by
  cases j with
  | obj gs =>
    cases hl : lookupField gs "text" with
    | none => simp [fragmentWF, fragText, hl]
    | some v => simp [fragmentNoText, hl] at h
  | null => simp [fragmentNoText] at h
  | bool b => simp [fragmentNoText] at h
  | num n => simp [fragmentNoText] at h
  | str s => simp [fragmentNoText] at h
  | arr xs => simp [fragmentNoText] at h

lemma messageNoText_imp {j : Json} (h : messageNoText j = true) :
    messageWF j = true ∧ messageTexts j = [] := by
  cases j with
  | obj gs =>
    cases hl : lookupField gs "fragments" with
    | none => simp [messageWF, messageTexts, hl]
    | some v =>
      cases v with
      | arr frs =>
        have hall : frs.all fragmentNoText = true := by simpa [messageNoText, hl] using h
        rw [List.all_eq_true] at hall
        constructor
        · simp only [messageWF, hl]
          rw [List.all_eq_true]
          exact fun j hj => (fragmentNoText_imp (hall j hj)).1
        · simp only [messageTexts, hl]
          rw [List.filterMap_eq_nil_iff]
          exact fun j hj => (fragmentNoText_imp (hall j hj)).2
      | null => simp [messageNoText, hl] at h
      | bool b => simp [messageNoText, hl] at h
      | num n => simp [messageNoText, hl] at h
      | str s => simp [messageNoText, hl] at h
      | obj o => simp [messageNoText, hl] at h
  | null => simp [messageNoText] at h
  | bool b => simp [messageNoText] at h
  | num n => simp [messageNoText] at h
  | str s => simp [messageNoText] at h
  | arr xs => simp [messageNoText] at h

lemma assistantTexts_nil {msgs : List Json} (h : ∀ m ∈ msgs, messageTexts m = []) :
    assistantTexts msgs = [] := by
  induction msgs with
  | nil => rfl
  | cons a rest ih =>
    simp only [assistantTexts, List.flatMap_cons] at *
    rw [h a (by simp), ih fun m hm => h m (by simp [hm])]
    rfl

lemma chatFallback_content (fs : List (String × Json)) (s : String)
    (hc : lookupField fs "content" = some (Json.str s)) :
    chatFallback (Json.obj fs) = .ok (.ok s) := by
  simp only [chatFallback, pyContains, pyGetItem]
  rw [hc]
  simp

lemma chatMessagesBranch_fallback (fs : List (String × Json))
    (hna : noAssistantFound fs = true) :
    chatMessagesBranch (Json.obj fs) = chatFallback (Json.obj fs) := by
  unfold noAssistantFound at hna
  cases hm : lookupField fs "messages" with
  | none =>
    simp only [chatMessagesBranch, pyContains]
    rw [hm]
    simp
  | some v =>
    rw [hm] at hna
    cases v with
    | arr items =>
      rw [chatMessagesBranch_obj fs items hm]
      rw [List.isEmpty_iff] at hna
      rw [hna]
    | null => simp only [chatMessagesBranch, pyContains, pyGetItem]; rw [hm]; simp
    | bool b => simp only [chatMessagesBranch, pyContains, pyGetItem]; rw [hm]; simp
    | num n => simp only [chatMessagesBranch, pyContains, pyGetItem]; rw [hm]; simp
    | str s => simp only [chatMessagesBranch, pyContains, pyGetItem]; rw [hm]; simp
    | obj o => simp only [chatMessagesBranch, pyContains, pyGetItem]; rw [hm]; simp

/-! ### Claim theorems -/

/-- C1.  For every decoded response body whose `messages` field is present
and is a list with at least one entry whose `author` equals "GLEAN_AI", the
chat operation returns the fragment texts of the assistant-authored entries
(every `text` field, in entry and fragment order, skipping fragments
without one) joined with the separator `"\n---\n"`.  The body is assumed
well-shaped in the way the claim presupposes: fragments form lists of
objects and `text` fields hold strings. -/
theorem chat_joins_all_assistant_fragment_texts
    (fs : List (String × Json)) (items : List Json) (m : Json) (rest : List Json)
    (hm : lookupField fs "messages" = some (Json.arr items))
    (hfil : items.filter isAssistant = m :: rest)
    (hwf : (items.filter isAssistant).all messageWF = true) :
    chatResult (Json.obj fs) =
      Except.ok (String.intercalate textSeparator (assistantTexts (items.filter isAssistant))) := by
  rw [hfil] at hwf ⊢
  rw [chatResult_messages_eq fs items m rest hm hfil]
  unfold extractFromAssistant
  simp [parse_response_wf _ hwf, pyJoin_map]

/-- Witness for C1, the spec's own two-assistant-message example: the
returned string joins the fragment texts of both assistant messages. -/
theorem chat_joins_all_assistant_fragment_texts_witness :
    (let items := [
        Json.obj [("author", Json.str "GLEAN_AI"),
                  ("fragments", Json.arr [Json.obj [("text", Json.str "a")]])],
        Json.obj [("author", Json.str "USER"),
                  ("fragments", Json.arr [Json.obj [("text", Json.str "ignored")]])],
        Json.obj [("author", Json.str "GLEAN_AI"),
                  ("fragments", Json.arr [Json.obj [("text", Json.str "b")]])]]
     chatResult (Json.obj [("messages", Json.arr items)]) =
       Except.ok (String.intercalate textSeparator (assistantTexts (items.filter isAssistant)))) ∧
    String.intercalate textSeparator (assistantTexts ([
        Json.obj [("author", Json.str "GLEAN_AI"),
                  ("fragments", Json.arr [Json.obj [("text", Json.str "a")]])],
        Json.obj [("author", Json.str "USER"),
                  ("fragments", Json.arr [Json.obj [("text", Json.str "ignored")]])],
        Json.obj [("author", Json.str "GLEAN_AI"),
                  ("fragments", Json.arr [Json.obj [("text", Json.str "b")]])]].filter isAssistant)) =
      "a\n---\nb" :=
  ⟨chat_joins_all_assistant_fragment_texts _ _ _ _ rfl rfl rfl, rfl⟩

/-- C2.  Whenever the primary extraction branch runs (messages present, a
list, with at least one assistant-authored entry), the returned value is
`extractFromAssistant` of the whole filtered list: a function with no
reference to the selected last assistant message, so that selection has no
effect on the output. -/
theorem chat_result_ignores_last_message_selection
    (fs : List (String × Json)) (items : List Json) (m : Json) (rest : List Json)
    (hm : lookupField fs "messages" = some (Json.arr items))
    (hfil : items.filter isAssistant = m :: rest) :
    chatResult (Json.obj fs) = extractFromAssistant (items.filter isAssistant) := by
  rw [hfil]
  exact chatResult_messages_eq fs items m rest hm hfil

/-- Witness for C2 at a body with two assistant messages. -/
theorem chat_result_ignores_last_message_selection_witness :
    chatResult (Json.obj [("messages", Json.arr [
        Json.obj [("author", Json.str "GLEAN_AI"),
                  ("fragments", Json.arr [Json.obj [("text", Json.str "first")]])],
        Json.obj [("author", Json.str "GLEAN_AI"),
                  ("fragments", Json.arr [Json.obj [("text", Json.str "second")]])]])]) =
      extractFromAssistant ([
        Json.obj [("author", Json.str "GLEAN_AI"),
                  ("fragments", Json.arr [Json.obj [("text", Json.str "first")]])],
        Json.obj [("author", Json.str "GLEAN_AI"),
                  ("fragments", Json.arr [Json.obj [("text", Json.str "second")]])]].filter isAssistant) :=
  chat_result_ignores_last_message_selection _ _ _ _ rfl rfl

/-- C3, counterexample.  The response `{"messages": []}` does NOT fail with
the "empty response" error (it reaches the could-not-extract error
instead), refuting the claim at that input. -/
theorem messages_empty_list_not_empty_error :
    chatResult (Json.obj [("messages", Json.arr [])]) ≠ Except.error emptyResponseErr := by
  have he : chatResult (Json.obj [("messages", Json.arr [])]) =
      Except.error couldNotExtractErr := rfl
  rw [he]
  intro h
  injection h with h'
  exact absurd h' (by decide)

/-- C3, amended.  The "empty response" check is on the whole decoded body,
not on the `messages` field: every falsy body (e.g. `{}` or `null`) fails
with the "empty response" internal error, while `{"messages": []}` is a
truthy body and instead fails with the could-not-extract internal error. -/
theorem empty_response_check_is_body_level (response : Json)
    (h : response.truthy = false) :
    chatResult response = Except.error emptyResponseErr ∧
    chatResult (Json.obj [("messages", Json.arr [])]) = Except.error couldNotExtractErr := by
  constructor
  · simp [chatResult, chatExtractCore, h]
  · rfl

/-- Witness for the amended C3 at the falsy body `null`. -/
theorem empty_response_check_is_body_level_witness :
    Json.null.truthy = false ∧
    (chatResult Json.null = Except.error emptyResponseErr ∧
     chatResult (Json.obj [("messages", Json.arr [])]) = Except.error couldNotExtractErr) :=
  ⟨rfl, empty_response_check_is_body_level Json.null rfl⟩

/-- C4, counterexample.  The empty object `{}` is a falsy body, so the chat
operation fails with the "empty response" error — which is a different
error from the could-not-extract error the claim asserts. -/
theorem empty_object_not_could_not_extract :
    chatResult (Json.obj []) = Except.error emptyResponseErr ∧
    emptyResponseErr ≠ couldNotExtractErr :=
  ⟨rfl, by decide⟩

/-- C4, amended.  For the decoded response body `{}` the chat operation
fails with the "empty response" internal error: the body-level emptiness
check fires before either extraction path is tried. -/
theorem empty_object_yields_empty_response_error :
    chatResult (Json.obj []) = Except.error emptyResponseErr := rfl

/-- C5.  When no assistant-authored message is found (`messages` absent,
not a list, or filtering to nothing) and the body has a string `content`
field, the chat operation returns that string unchanged. -/
theorem chat_content_fallback (fs : List (String × Json)) (s : String)
    (hc : lookupField fs "content" = some (Json.str s))
    (hna : noAssistantFound fs = true) :
    chatResult (Json.obj fs) = Except.ok s := by
  have ht := truthy_of_lookupField hc
  unfold chatResult chatExtractCore
  rw [ht]
  simp only [if_true]
  rw [chatMessagesBranch_fallback fs hna, chatFallback_content fs s hc]

/-- Witness for C5: `{"content": "plain text"}` returns `"plain text"`. -/
theorem chat_content_fallback_witness :
    lookupField [("content", Json.str "plain text")] "content" = some (Json.str "plain text") ∧
    noAssistantFound [("content", Json.str "plain text")] = true ∧
    chatResult (Json.obj [("content", Json.str "plain text")]) = Except.ok "plain text" :=
  ⟨rfl, rfl, chat_content_fallback _ _ rfl rfl⟩

/-- C10.  When at least one assistant-authored entry exists but no fragment
of any assistant-authored entry has a `text` field, the chat operation
returns the empty string — it neither fails nor falls back to the `content`
field. -/
theorem chat_no_fragment_texts_returns_empty_string
    (fs : List (String × Json)) (items : List Json) (m : Json) (rest : List Json)
    (hm : lookupField fs "messages" = some (Json.arr items))
    (hfil : items.filter isAssistant = m :: rest)
    (hnt : (m :: rest).all messageNoText = true) :
    chatResult (Json.obj fs) = Except.ok "" := by
  rw [chatResult_messages_eq fs items m rest hm hfil]
  rw [List.all_eq_true] at hnt
  have hwf : (m :: rest).all messageWF = true := by
    rw [List.all_eq_true]
    exact fun j hj => (messageNoText_imp (hnt j hj)).1
  have hat : assistantTexts (m :: rest) = [] :=
    assistantTexts_nil fun j hj => (messageNoText_imp (hnt j hj)).2
  unfold extractFromAssistant
  simp [parse_response_wf _ hwf, hat, pyJoin_map]
  rfl

/-- Witness for C10: one assistant message whose only fragment has no
`text` field, next to a `content` field that is NOT returned. -/
theorem chat_no_fragment_texts_returns_empty_string_witness :
    ([Json.obj [("author", Json.str "GLEAN_AI"),
                ("fragments", Json.arr [Json.obj [("summary", Json.str "x")]])]].all
        messageNoText = true) ∧
    chatResult (Json.obj [
        ("messages", Json.arr [Json.obj [("author", Json.str "GLEAN_AI"),
            ("fragments", Json.arr [Json.obj [("summary", Json.str "x")]])]]),
        ("content", Json.str "fallback")]) = Except.ok "" :=
  ⟨rfl, chat_no_fragment_texts_returns_empty_string _ _ _ _ rfl rfl rfl⟩

/-! ### Request serialization (C6) -/

lemma decodeFragment_toJson (f : Fragment) : decodeFragment (Fragment.toJson f) = some f := rfl

lemma decodeList_map {α : Type} (f : Json → Option α) (g : α → Json)
    (hfg : ∀ a, f (g a) = some a) (l : List α) :
    decodeList f (l.map g) = some l := by
  induction l with
  | nil => rfl
  | cons a rest ih => simp [decodeList, hfg a, ih]

lemma decodeMessage_toJson (m : ChatMessage) :
    decodeMessage (ChatMessage.toJson m) = some m := by
  simp [ChatMessage.toJson, decodeMessage,
    decodeList_map decodeFragment Fragment.toJson decodeFragment_toJson]

/-- C6.  The serialized request body decodes back to exactly the original
messages (same fragments and texts, in order) together with
`saveChat = true` and `stream = false`; the decoder accepts only the wire
field names `author`, `fragments`, `messageType`, `text`, in the serialized
order, so the body carries exactly those fields. -/
theorem request_body_roundtrip (messages : List ChatMessage) :
    decodeRequest (request_data messages) = some (messages, true, false) := by
  simp [request_data, decodeRequest,
    decodeList_map decodeMessage ChatMessage.toJson decodeMessage_toJson]

/-! ### Transport (C7, C8, C9) -/

/-- C7.  With a missing (or empty) API key, every chat invocation fails
with the internal error about the unset environment variable, the result
does not depend on the network's behaviour, and no HTTP request is issued
(the second component is `false`). -/
theorem missing_key_fails_before_request
    (apiKey : Option String) (messages : List ChatMessage)
    (responder : Json → HttpOutcome) (h : keyFalsy apiKey = true) :
    chat apiKey messages responder =
      (Except.error ⟨ErrorCode.internalError,
        "GLEAN_API_KEY environment variable is not set"⟩, false) := by
  simp [chat, make_glean_request, h]

/-- Witness for C7: unset key, arbitrary message list, a network that would
time out if consulted. -/
theorem missing_key_fails_before_request_witness :
    keyFalsy none = true ∧
    chat none [] (fun _ => HttpOutcome.timeoutException) =
      (Except.error ⟨ErrorCode.internalError,
        "GLEAN_API_KEY environment variable is not set"⟩, false) :=
  ⟨rfl, missing_key_fails_before_request none [] _ rfl⟩

/-- C8.  The HTTP status handling of `make_glean_request` agrees with the
claimed mapping `gleanStatusSpec`: 401 → invalid-key internal error, 403 →
forbidden/permissions internal error, 429 → rate-limit internal error, any
other non-2xx → generic HTTP-status internal error, and 2xx succeeds; every
error carries the single internal-error code. -/
theorem status_code_error_mapping (status : Nat) (statusText : String) (body : Json) :
    requestOutcome (HttpOutcome.response status statusText body) =
      gleanStatusSpec status statusText body := by
  simp only [requestOutcome, tryRequest, gleanStatusSpec]
  split_ifs <;> rfl

lemma ne_of_head {s1 s2 : String} {c1 c2 : Char} (h1 : s1.data.head? = some c1)
    (h2 : s2.data.head? = some c2) (hc : c1 ≠ c2) : s1 ≠ s2 := by
  intro h
  rw [h, h2] at h1
  exact hc (Option.some.inj h1).symm

lemma append_head (a b : String) (c : Char) (l : List Char) (h : a.data = c :: l) :
    (a ++ b).data.head? = some c := by
  rw [String.data_append, h]
  rfl

/-- C9.  Timeout and connection failures are internal errors whose message
texts describe the transport failure and are distinct from every message an
HTTP-status failure can produce. -/
theorem transport_errors_distinct_from_status_errors
    (d t : String) (status : Nat) (body : Json) (e : McpErr)
    (h : requestOutcome (HttpOutcome.response status t body) = Except.error e) :
    requestOutcome HttpOutcome.timeoutException =
        Except.error ⟨ErrorCode.internalError, "Request to Glean API timed out"⟩ ∧
    requestOutcome (HttpOutcome.requestError d) =
        Except.error ⟨ErrorCode.internalError, "Failed to connect to Glean API: " ++ d⟩ ∧
    "Request to Glean API timed out" ≠ e.message ∧
    "Failed to connect to Glean API: " ++ d ≠ e.message := by
  refine ⟨rfl, rfl, ?_, ?_⟩ <;>
  · simp only [requestOutcome, tryRequest] at h
    split_ifs at h with h401 h403 h429 h2xx <;> cases h <;>
      simp only [failureToMcp] <;>
      first
        | decide
        | exact ne_of_head rfl (append_head _ t 'G' _ rfl) (by decide)
        | exact ne_of_head (append_head _ d 'F' _ rfl) rfl (by decide)

/-- Witness for C9 at a concrete 401 response and a concrete connection
failure description. -/
theorem transport_errors_distinct_from_status_errors_witness :
    requestOutcome (HttpOutcome.response 401 "err" Json.null) =
      Except.error ⟨ErrorCode.internalError, "Invalid Glean API key"⟩ ∧
    (requestOutcome HttpOutcome.timeoutException =
        Except.error ⟨ErrorCode.internalError, "Request to Glean API timed out"⟩ ∧
     requestOutcome (HttpOutcome.requestError "connection refused") =
        Except.error ⟨ErrorCode.internalError,
          "Failed to connect to Glean API: " ++ "connection refused"⟩ ∧
     "Request to Glean API timed out" ≠
        (McpErr.mk ErrorCode.internalError "Invalid Glean API key").message ∧
     "Failed to connect to Glean API: " ++ "connection refused" ≠
        (McpErr.mk ErrorCode.internalError "Invalid Glean API key").message) :=
  ⟨rfl, transport_errors_distinct_from_status_errors "connection refused" "err" 401 Json.null
      ⟨ErrorCode.internalError, "Invalid Glean API key"⟩ rfl⟩

end Glean
